import Mathlib

/-!
Verification of the Proximity Presence Engine of the AIIIR bot.

The repository has two variants of the engine:
* src/bot.py : an sqlite-backed bot (class DB). Sessions live in the
  air_sessions table (user_id PRIMARY KEY, lat, lon, updated_at); matching,
  the radius filter and the notification fan-out live in the on_location
  handler; daily ping limits live in enforce_daily_ping_limit.
* src/db.py : a Postgres data layer (class Database) with a sessions
  table (user_id PRIMARY KEY, lat, lon, updated_at, active_until),
  upsert_session, set_session_inactive and get_active_sessions(now).

We embed both shallowly: timestamps are integers (seconds), coordinates
are real numbers, SQL tables are lists of rows, and the SQL INSERT ... ON
CONFLICT DO UPDATE and DELETE statements become list operations with the
same semantics (a PRIMARY KEY conflict updates the matching rows in place,
otherwise the new row is appended; DELETE filters matching rows out).
The external transport (bot.send_message) is modelled as always
succeeding, and timestamps always parse.
-/

namespace AIIIR

noncomputable section

open Real

/-- Degrees to radians, as math.radians in Python: x * pi / 180. -/
def radians (x : ℝ) : ℝ := x * Real.pi / 180

/-- Two-argument arctangent, as math.atan2(y, x) in Python (C atan2 on
finite, signed-zero-free reals). In haversine_m it is only ever applied to
nonnegative arguments. -/
def atan2 (y x : ℝ) : ℝ :=
  if 0 < x then Real.arctan (y / x)
  else if x = 0 then
    (if 0 < y then Real.pi / 2 else if y < 0 then -(Real.pi / 2) else 0)
  else
    (if 0 ≤ y then Real.arctan (y / x) + Real.pi else Real.arctan (y / x) - Real.pi)

/-- Great-circle distance in meters, translated from haversine_m in
src/bot.py lines 73-81: sphere radius 6371000, haversine formula. -/
def haversine_m (lat1 lon1 lat2 lon2 : ℝ) : ℝ :=
  let R : ℝ := 6371000.0
  let p1 := radians lat1
  let p2 := radians lat2
  let dp := radians (lat2 - lat1)
  let dl := radians (lon2 - lon1)
  let a := Real.sin (dp / 2) ^ 2 + Real.cos p1 * Real.cos p2 * Real.sin (dl / 2) ^ 2
  let c := 2 * atan2 (Real.sqrt a) (Real.sqrt (1 - a))
  R * c

/-- Truncation toward zero, as Python int() applied to a float. -/
def intTrunc (x : ℝ) : ℤ := if 0 ≤ x then ⌊x⌋ else ⌈x⌉

end

/-- A row of the users table of src/bot.py (the fields the engine reads:
user_id, name, marker; name and marker are nullable TEXT). -/
structure UserRow where
  user_id : Int
  name : Option String
  marker : Option String

/-- A row of the air_sessions table of src/bot.py
(user_id INTEGER PRIMARY KEY, lat REAL, lon REAL, updated_at TEXT). -/
structure AirSession where
  user_id : Int
  lat : ℝ
  lon : ℝ
  updated_at : Int

/-- A row of the daily_limits table of src/bot.py
(PRIMARY KEY (ymd, user_id, key)). -/
structure DailyRow where
  ymd : String
  user_id : Int
  key : String
  value : Int

/-- Python truthiness of an Optional[str]: None and the empty string are
falsy. -/
def truthy : Option String → Bool
  | none => false
  | some s => !(s == "")

namespace DB

/-- DB.get_user of src/bot.py: SELECT the row with the given user_id. -/
def get_user (users : List UserRow) (user_id : Int) : Option UserRow :=
  users.find? (fun u => u.user_id == user_id)

/-- DB.profile_complete of src/bot.py line 287-289:
bool(u and u[1] and u[2]). -/
def profile_complete (users : List UserRow) (user_id : Int) : Bool :=
  match get_user users user_id with
  | some u => truthy u.name && truthy u.marker
  | none => false

/-- DB.upsert_air_location of src/bot.py lines 346-357:
INSERT INTO air_sessions VALUES(...) ON CONFLICT(user_id) DO UPDATE SET
lat=excluded.lat, lon=excluded.lon, updated_at=excluded.updated_at.
No coordinate validation is performed. -/
def upsert_air_location (store : List AirSession) (user_id : Int) (lat lon : ℝ)
    (ts : Int) : List AirSession :=
  if store.any (fun s => s.user_id == user_id) then
    store.map (fun s => if s.user_id == user_id then ⟨user_id, lat, lon, ts⟩ else s)
  else store ++ [⟨user_id, lat, lon, ts⟩]

/-- DB.get_active_sessions of src/bot.py lines 359-375: SELECT all rows;
with AIR_TTL_MINUTES <= 0 return them all, otherwise keep rows whose
updated_at is at or after the cutoff now - ttl_minutes minutes. -/
def get_active_sessions (store : List AirSession) (ttl_minutes : Int)
    (now : Int) : List AirSession :=
  if ttl_minutes ≤ 0 then store
  else store.filter (fun s => now - ttl_minutes * 60 ≤ s.updated_at)

/-- DB.get_daily of src/bot.py lines 378-384: the stored value, or 0 when
no row exists. -/
def get_daily (daily : List DailyRow) (ymd : String) (user_id : Int)
    (key : String) : Int :=
  match daily.find? (fun r => r.ymd == ymd && r.user_id == user_id && r.key == key) with
  | some r => r.value
  | none => 0

/-- DB.inc_daily of src/bot.py lines 386-396: INSERT ... ON CONFLICT
(ymd, user_id, key) DO UPDATE SET value = value + excluded.value. -/
def inc_daily (daily : List DailyRow) (ymd : String) (user_id : Int)
    (key : String) (amt : Int) : List DailyRow :=
  if daily.any (fun r => r.ymd == ymd && r.user_id == user_id && r.key == key) then
    daily.map (fun r =>
      if r.ymd == ymd && r.user_id == user_id && r.key == key then
        ⟨ymd, user_id, key, r.value + amt⟩
      else r)
  else daily ++ [⟨ymd, user_id, key, amt⟩]

end DB

/-- enforce_daily_ping_limit of src/bot.py lines 663-679, with the plan's
daily_pings passed in (the code reads it from get_plan_for_user): with a
non-positive limit the ping is allowed and nothing is recorded; at or over
the limit it is refused; otherwise the daily counter is incremented by 1.
Returns the allow flag and the updated daily_limits table. -/
def enforce_daily_ping_limit (daily : List DailyRow) (ymd : String)
    (user_id : Int) (daily_pings : Int) : Bool × List DailyRow :=
  let used := DB.get_daily daily ymd user_id "pings"
  if daily_pings ≤ 0 then (true, daily)
  else if daily_pings ≤ used then (false, daily)
  else (true, DB.inc_daily daily ymd user_id "pings" 1)

/-- One entry of the nearby list built in on_location (src/bot.py line
707): the tuple (uid, dist_m, lat, lon) with dist_m = int(haversine_m ...). -/
structure NearbyEntry where
  uid : Int
  dist : Int
  lat : ℝ
  lon : ℝ

/-- The full database state of src/bot.py that the location handler reads
and writes (users, air_sessions, daily_limits). -/
structure BotState where
  users : List UserRow
  air : List AirSession
  daily : List DailyRow

/-- The three ways on_location can answer: profile not complete, daily
ping limit hit, or the normal path. -/
inductive Outcome where
  | profileIncomplete
  | limitBlocked
  | ok
deriving DecidableEq

/-- What on_location produces besides the new state: the outcome, the
nearby match list it computed, and how many notifications it sent. -/
structure LocationResult where
  outcome : Outcome
  matchList : List NearbyEntry
  notified : Nat

noncomputable section

/-- The match computation of on_location, src/bot.py lines 706-715: scan
the active sessions, skip the querying user's own row, keep candidates
with int(haversine_m ...) <= radius_m, then nearby.sort(key=dist)
(Python's sort is stable; List.mergeSort is the stable sort). -/
def computeNearby (sessions : List AirSession) (user_id : Int) (lat lon : ℝ)
    (radius_m : Int) : List NearbyEntry :=
  (sessions.filterMap (fun s =>
    if s.user_id == user_id then none
    else
      let dist := intTrunc (haversine_m lat lon s.lat s.lon)
      if dist ≤ radius_m then some ⟨s.user_id, dist, s.lat, s.lon⟩ else none)).mergeSort
    (fun a b => a.dist ≤ b.dist)

/-- The on_location handler of src/bot.py lines 681-771, with the plan
values (radius_m, daily_pings) and the TTL passed in as the code reads
them from configuration and get_plan_for_user. Steps: profile gate, daily
ping limit, upsert_air_location, get_active_sessions, nearby computation,
then one notification per entry of nearby[:25] whose user row exists
(transport modelled as succeeding; analytics events and counters are not
modelled). -/
def on_location (st : BotState) (user_id : Int) (lat lon : ℝ) (now : Int)
    (ymd : String) (radius_m daily_pings ttl_minutes : Int) :
    BotState × LocationResult :=
  if DB.profile_complete st.users user_id then
    match enforce_daily_ping_limit st.daily ymd user_id daily_pings with
    | (false, daily2) => (⟨st.users, st.air, daily2⟩, ⟨.limitBlocked, [], 0⟩)
    | (true, daily2) =>
      let air2 := DB.upsert_air_location st.air user_id lat lon now
      let sessions := DB.get_active_sessions air2 ttl_minutes now
      let nearby := computeNearby sessions user_id lat lon radius_m
      let notified := ((nearby.take 25).filter
        (fun e => (DB.get_user st.users e.uid).isSome)).length
      (⟨st.users, air2, daily2⟩, ⟨.ok, nearby, notified⟩)
  else (st, ⟨.profileIncomplete, [], 0⟩)

end

/-- A row of the sessions table of src/db.py (user_id BIGINT PRIMARY KEY,
lat, lon, updated_at, active_until nullable). -/
structure SessionRow where
  user_id : Int
  lat : ℝ
  lon : ℝ
  updated_at : Int
  active_until : Option Int

/-- A row of the users table of src/db.py (the fields get_active_sessions
selects: user_id, name, marker, premium_until). -/
structure PGUser where
  user_id : Int
  name : Option String
  marker : Option String
  premium_until : Option Int

namespace Database

/-- Database.upsert_session of src/db.py lines 110-118:
INSERT INTO sessions VALUES($1,$2,$3,NOW(),$4) ON CONFLICT (user_id) DO
UPDATE SET lat=EXCLUDED.lat, lon=EXCLUDED.lon, updated_at=NOW(),
active_until=EXCLUDED.active_until. Every field of the row is overwritten.
No coordinate validation is performed. -/
def upsert_session (sessions : List SessionRow) (user_id : Int) (lat lon : ℝ)
    (now : Int) (active_until : Option Int) : List SessionRow :=
  if sessions.any (fun s => s.user_id == user_id) then
    sessions.map (fun s =>
      if s.user_id == user_id then ⟨user_id, lat, lon, now, active_until⟩ else s)
  else sessions ++ [⟨user_id, lat, lon, now, active_until⟩]

/-- Database.set_session_inactive of src/db.py lines 120-123:
DELETE FROM sessions WHERE user_id=$1. The row is removed, not flagged. -/
def set_session_inactive (sessions : List SessionRow) (user_id : Int) :
    List SessionRow :=
  sessions.filter (fun s => !(s.user_id == user_id))

/-- The WHERE clause of Database.get_active_sessions:
s.active_until IS NULL OR s.active_until > $1. -/
def visibleAt (s : SessionRow) (now : Int) : Bool :=
  match s.active_until with
  | none => true
  | some t => now < t

/-- Database.get_active_sessions of src/db.py lines 125-135:
SELECT s.*, u.name, u.marker, u.premium_until FROM sessions s JOIN users u
ON u.user_id = s.user_id WHERE s.active_until IS NULL OR
s.active_until > $1. -/
def get_active_sessions (sessions : List SessionRow) (users : List PGUser)
    (now : Int) : List (SessionRow × PGUser) :=
  sessions.filterMap (fun s =>
    match users.find? (fun u => u.user_id == s.user_id) with
    | some u => if visibleAt s now then some (s, u) else none
    | none => none)

end Database

/-- A concrete users table for concrete runs: two complete profiles. -/
def users0 : List UserRow := [⟨1, some "A", some "x"⟩, ⟨2, some "B", some "y"⟩]

/-- A concrete state: user 2 has an air session at the origin. -/
def st0 : BotState := ⟨users0, [⟨2, 0, 0, 0⟩], []⟩

/-- The state st0 after user 1 also submits the origin as location. -/
def st1 : BotState := ⟨users0, [⟨2, 0, 0, 0⟩, ⟨1, 0, 0, 0⟩], []⟩

/-- A concrete state with a single complete profile and no sessions. -/
def st2 : BotState := ⟨[⟨1, some "A", some "x"⟩], [], []⟩

/-! ## Theorems -/

/-- The truncation of 0 is 0. -/
theorem intTrunc_zero : intTrunc 0 = 0 := by
  simp [intTrunc]

/-- The haversine distance from a point to itself is zero. -/
theorem haversine_m_self (lat lon : ℝ) : haversine_m lat lon lat lon = 0 := by
  simp [haversine_m, radians, atan2, Real.arctan_zero]

/-- C9: the great-circle distance function is symmetric: for every pair of
coordinate points a and b, distanceMeters(a, b) equals distanceMeters(b, a).
Modelled on haversine_m from src/bot.py over the reals. -/
theorem haversine_m_symm (lat1 lon1 lat2 lon2 : ℝ) :
    haversine_m lat1 lon1 lat2 lon2 = haversine_m lat2 lon2 lat1 lon1 := by
  unfold haversine_m
  have hp : radians (lat1 - lat2) = -(radians (lat2 - lat1)) := by
    unfold radians; ring
  have hl : radians (lon1 - lon2) = -(radians (lon2 - lon1)) := by
    unfold radians; ring
  simp only [hp, hl, neg_div, Real.sin_neg, neg_sq]
  ring_nf

/-- After upsert_air_location the stored row for the user carries exactly
the given coordinates and timestamp, whatever was stored before. -/
theorem find?_upsert_air (store : List AirSession) (uid : Int) (lat lon : ℝ) (ts : Int) :
    (DB.upsert_air_location store uid lat lon ts).find? (fun s => s.user_id == uid) =
      some ⟨uid, lat, lon, ts⟩ := by
  unfold DB.upsert_air_location
  by_cases h : store.any (fun s => s.user_id == uid)
  · rw [if_pos h]
    induction store with
    | nil => simp at h
    | cons a l ih =>
      rw [List.map_cons, List.find?_cons]
      by_cases ha : a.user_id == uid
      · rw [if_pos ha]
        simp
      · rw [if_neg ha]
        have ha' : (a.user_id == uid) = false := by
          rwa [Bool.not_eq_true] at ha
        rw [ha']
        have hl : l.any (fun s => s.user_id == uid) = true := by
          rw [List.any_cons, ha'] at h
          simpa using h
        exact ih hl
  · rw [if_neg h]
    rw [List.find?_append]
    have h' : store.any (fun s => s.user_id == uid) = false := by
      rwa [Bool.not_eq_true] at h
    have hn : store.find? (fun s => s.user_id == uid) = none := by
      rw [List.find?_eq_none]
      intro x hx
      exact (List.any_eq_false.mp h') x hx
    rw [hn]
    simp [List.find?_cons]

/-- upsert_air_location keeps the user_id column duplicate-free. -/
theorem keys_upsert_air (store : List AirSession) (uid : Int) (lat lon : ℝ) (ts : Int)
    (h : (store.map (fun s => s.user_id)).Nodup) :
    ((DB.upsert_air_location store uid lat lon ts).map (fun s => s.user_id)).Nodup := by
  unfold DB.upsert_air_location
  by_cases ha : store.any (fun s => s.user_id == uid)
  · rw [if_pos ha]
    rw [List.map_map]
    have : store.map ((fun s => s.user_id) ∘ fun s =>
        if s.user_id == uid then AirSession.mk uid lat lon ts else s) =
        store.map (fun s => s.user_id) := by
      apply List.map_congr_left
      intro a _
      by_cases hk : a.user_id == uid
      · simp only [Function.comp, hk, if_pos]
        exact (beq_iff_eq.mp hk).symm
      · simp only [Function.comp, if_neg hk]
    rw [this]
    exact h
  · rw [if_neg ha]
    rw [List.map_append]
    simp only [List.map_cons, List.map_nil]
    rw [List.nodup_append]
    refine ⟨h, List.nodup_singleton _, ?_⟩
    intro x hx hmem
    have hc : x = uid := List.mem_singleton.mp hmem
    have h' : store.any (fun s => s.user_id == uid) = false := by
      rwa [Bool.not_eq_true] at ha
    obtain ⟨s, hs, hsk⟩ := List.mem_map.mp hx
    have := (List.any_eq_false.mp h') s hs
    exact this (by rw [beq_iff_eq]; rw [hsk]; exact hc)

/-- After upsert_session the stored row for the user carries exactly the
given coordinates, timestamp and expiry, whatever was stored before. -/
theorem find?_upsert_session (sessions : List SessionRow) (uid : Int) (lat lon : ℝ)
    (now : Int) (au : Option Int) :
    (Database.upsert_session sessions uid lat lon now au).find? (fun s => s.user_id == uid) =
      some ⟨uid, lat, lon, now, au⟩ := by
  unfold Database.upsert_session
  by_cases h : sessions.any (fun s => s.user_id == uid)
  · rw [if_pos h]
    induction sessions with
    | nil => simp at h
    | cons a l ih =>
      rw [List.map_cons, List.find?_cons]
      by_cases ha : a.user_id == uid
      · rw [if_pos ha]
        simp
      · rw [if_neg ha]
        have ha' : (a.user_id == uid) = false := by
          rwa [Bool.not_eq_true] at ha
        rw [ha']
        have hl : l.any (fun s => s.user_id == uid) = true := by
          rw [List.any_cons, ha'] at h
          simpa using h
        exact ih hl
  · rw [if_neg h]
    rw [List.find?_append]
    have h' : sessions.any (fun s => s.user_id == uid) = false := by
      rwa [Bool.not_eq_true] at h
    have hn : sessions.find? (fun s => s.user_id == uid) = none := by
      rw [List.find?_eq_none]
      intro x hx
      exact (List.any_eq_false.mp h') x hx
    rw [hn]
    simp [List.find?_cons]

/-- upsert_session keeps the user_id column duplicate-free. -/
theorem keys_upsert_session (sessions : List SessionRow) (uid : Int) (lat lon : ℝ)
    (now : Int) (au : Option Int)
    (h : (sessions.map (fun s => s.user_id)).Nodup) :
    ((Database.upsert_session sessions uid lat lon now au).map (fun s => s.user_id)).Nodup := by
  unfold Database.upsert_session
  by_cases ha : sessions.any (fun s => s.user_id == uid)
  · rw [if_pos ha]
    rw [List.map_map]
    have : sessions.map ((fun s => s.user_id) ∘ fun s =>
        if s.user_id == uid then SessionRow.mk uid lat lon now au else s) =
        sessions.map (fun s => s.user_id) := by
      apply List.map_congr_left
      intro a _
      by_cases hk : a.user_id == uid
      · simp only [Function.comp, hk, if_pos]
        exact (beq_iff_eq.mp hk).symm
      · simp only [Function.comp, if_neg hk]
    rw [this]
    exact h
  · rw [if_neg ha]
    rw [List.map_append]
    simp only [List.map_cons, List.map_nil]
    rw [List.nodup_append]
    refine ⟨h, List.nodup_singleton _, ?_⟩
    intro x hx hmem
    have hc : x = uid := List.mem_singleton.mp hmem
    have h' : sessions.any (fun s => s.user_id == uid) = false := by
      rwa [Bool.not_eq_true] at ha
    obtain ⟨s, hs, hsk⟩ := List.mem_map.mp hx
    have := (List.any_eq_false.mp h') s hs
    exact this (by rw [beq_iff_eq]; rw [hsk]; exact hc)

/-- set_session_inactive keeps the user_id column duplicate-free. -/
theorem keys_set_session_inactive (sessions : List SessionRow) (uid : Int)
    (h : (sessions.map (fun s => s.user_id)).Nodup) :
    ((Database.set_session_inactive sessions uid).map (fun s => s.user_id)).Nodup := by
  unfold Database.set_session_inactive
  exact ((List.filter_sublist sessions).map (fun s => s.user_id)).nodup h

/-- Membership in the nearby list: exactly the non-self sessions whose
truncated haversine distance is within the radius, tagged with that
distance. -/
theorem mem_computeNearby (sessions : List AirSession) (user_id : Int) (lat lon : ℝ)
    (radius_m : Int) (e : NearbyEntry) :
    e ∈ computeNearby sessions user_id lat lon radius_m ↔
      ∃ s ∈ sessions, (s.user_id == user_id) = false ∧
        intTrunc (haversine_m lat lon s.lat s.lon) ≤ radius_m ∧
        e = ⟨s.user_id, intTrunc (haversine_m lat lon s.lat s.lon), s.lat, s.lon⟩ := by
  unfold computeNearby
  rw [List.mem_mergeSort, List.mem_filterMap]
  constructor
  · rintro ⟨s, hs, hf⟩
    by_cases hk : s.user_id == user_id
    · rw [if_pos hk] at hf
      exact absurd hf (by simp)
    · rw [if_neg hk] at hf
      by_cases hd : intTrunc (haversine_m lat lon s.lat s.lon) ≤ radius_m
      · rw [if_pos hd] at hf
        refine ⟨s, hs, ?_, hd, ?_⟩
        · rwa [Bool.not_eq_true] at hk
        · exact (Option.some.injEq _ _ ▸ hf).symm
      · rw [if_neg hd] at hf
        exact absurd hf (by simp)
  · rintro ⟨s, hs, hk, hd, he⟩
    refine ⟨s, hs, ?_⟩
    rw [if_neg (by simp [hk]), if_pos hd, he]

/-- Every row of an upserted store that carries the upserted key is the
freshly written row. -/
theorem upsert_air_key_rows (store : List AirSession) (uid : Int) (lat lon : ℝ) (ts : Int) :
    ∀ s ∈ DB.upsert_air_location store uid lat lon ts,
      (s.user_id == uid) = true → s = ⟨uid, lat, lon, ts⟩ := by
  unfold DB.upsert_air_location
  by_cases h : store.any (fun s => s.user_id == uid)
  · rw [if_pos h]
    intro s hs hk
    obtain ⟨a, _, ha⟩ := List.mem_map.mp hs
    by_cases hak : a.user_id == uid
    · rw [if_pos hak] at ha
      exact ha.symm
    · rw [if_neg hak] at ha
      rw [← ha] at hk
      exact absurd hk hak
  · rw [if_neg h]
    intro s hs hk
    rcases List.mem_append.mp hs with hmem | hmem
    · have h' : store.any (fun s => s.user_id == uid) = false := by
        rwa [Bool.not_eq_true] at h
      exact absurd hk ((List.any_eq_false.mp h') s hmem)
    · exact List.mem_singleton.mp hmem

/-- Upserting the same location twice in a row is the same as doing it
once. -/
theorem upsert_air_idem (store : List AirSession) (uid : Int) (lat lon : ℝ) (ts : Int) :
    DB.upsert_air_location (DB.upsert_air_location store uid lat lon ts) uid lat lon ts =
      DB.upsert_air_location store uid lat lon ts := by
  have hmem : (⟨uid, lat, lon, ts⟩ : AirSession) ∈ DB.upsert_air_location store uid lat lon ts :=
    List.mem_of_find?_eq_some (find?_upsert_air store uid lat lon ts)
  have hany : (DB.upsert_air_location store uid lat lon ts).any
      (fun s => s.user_id == uid) = true :=
    List.any_eq_true.mpr ⟨_, hmem, by simp⟩
  conv_lhs => rw [DB.upsert_air_location]
  rw [if_pos hany]
  have : (DB.upsert_air_location store uid lat lon ts).map
      (fun s => if s.user_id == uid then AirSession.mk uid lat lon ts else s) =
      (DB.upsert_air_location store uid lat lon ts).map id := by
    apply List.map_congr_left
    intro a ha
    by_cases hk : a.user_id == uid
    · rw [if_pos hk, id]
      exact (upsert_air_key_rows store uid lat lon ts a ha hk).symm
    · rw [if_neg hk, id]
  rw [this, List.map_id]

/-- The daily counter read back after inc_daily is the old value plus the
increment. -/
theorem get_daily_inc_daily (daily : List DailyRow) (ymd : String) (uid : Int)
    (key : String) (amt : Int) :
    DB.get_daily (DB.inc_daily daily ymd uid key amt) ymd uid key =
      DB.get_daily daily ymd uid key + amt := by
  unfold DB.inc_daily
  by_cases h : daily.any (fun r => r.ymd == ymd && r.user_id == uid && r.key == key)
  · rw [if_pos h]
    unfold DB.get_daily
    induction daily with
    | nil => simp at h
    | cons a l ih =>
      rw [List.map_cons, List.find?_cons, List.find?_cons]
      by_cases ha : a.ymd == ymd && a.user_id == uid && a.key == key
      · rw [if_pos ha, ha]
        simp
      · rw [if_neg ha]
        have ha' : (a.ymd == ymd && a.user_id == uid && a.key == key) = false := by
          rwa [Bool.not_eq_true] at ha
        rw [ha']
        have hl : l.any (fun r => r.ymd == ymd && r.user_id == uid && r.key == key) = true := by
          rw [List.any_cons, ha'] at h
          simpa using h
        exact ih hl
  · rw [if_neg h]
    have h' : daily.any (fun r => r.ymd == ymd && r.user_id == uid && r.key == key) = false := by
      rwa [Bool.not_eq_true] at h
    have hn : daily.find? (fun r => r.ymd == ymd && r.user_id == uid && r.key == key) = none := by
      rw [List.find?_eq_none]
      intro x hx
      exact (List.any_eq_false.mp h') x hx
    unfold DB.get_daily
    rw [List.find?_append, hn]
    simp [List.find?_cons, hn]

/-- Concrete run of the match computation: the querying user 1 and the
candidate user 2 both stand at the origin; the candidate is matched at
distance 0. -/
theorem nearbyEval :
    computeNearby [⟨2, 0, 0, 0⟩, ⟨1, 0, 0, 0⟩] 1 0 0 200 = [⟨2, 0, 0, 0⟩] := by
  have h1 : haversine_m 0 0 0 0 = 0 := haversine_m_self 0 0
  unfold computeNearby
  rw [List.filterMap_cons, List.filterMap_cons, List.filterMap_nil]
  norm_num [h1, intTrunc_zero, List.mergeSort_singleton]

/-- Concrete run of the match computation with the querying user's own
session stored first in the scan. -/
theorem nearbyEval2 :
    computeNearby [⟨1, 0, 0, 0⟩, ⟨2, 0, 0, 0⟩] 1 0 0 200 = [⟨2, 0, 0, 0⟩] := by
  have h1 : haversine_m 0 0 0 0 = 0 := haversine_m_self 0 0
  unfold computeNearby
  rw [List.filterMap_cons, List.filterMap_cons, List.filterMap_nil]
  norm_num [h1, intTrunc_zero, List.mergeSort_singleton]

/-- First concrete location submission by user 1 at the origin, with user
2 present there: one match shown, one notification sent. -/
theorem run1 :
    on_location st0 1 0 0 0 "d" 200 0 0 =
      (st1, ⟨.ok, [⟨2, 0, 0, 0⟩], 1⟩) := by
  have hmid : on_location st0 1 0 0 0 "d" 200 0 0 =
      (st1, ⟨.ok, computeNearby [⟨2, 0, 0, 0⟩, ⟨1, 0, 0, 0⟩] 1 0 0 200,
        (((computeNearby [⟨2, 0, 0, 0⟩, ⟨1, 0, 0, 0⟩] 1 0 0 200).take 25).filter
          (fun e => (DB.get_user users0 e.uid).isSome)).length⟩) := rfl
  rw [hmid, nearbyEval]
  rfl

/-- Second, identical location submission by user 1 immediately after the
first: the same match is shown and one more notification is sent. -/
theorem run2 :
    on_location st1 1 0 0 0 "d" 200 0 0 =
      (st1, ⟨.ok, [⟨2, 0, 0, 0⟩], 1⟩) := by
  have hmid : on_location st1 1 0 0 0 "d" 200 0 0 =
      (st1, ⟨.ok, computeNearby [⟨2, 0, 0, 0⟩, ⟨1, 0, 0, 0⟩] 1 0 0 200,
        (((computeNearby [⟨2, 0, 0, 0⟩, ⟨1, 0, 0, 0⟩] 1 0 0 200).take 25).filter
          (fun e => (DB.get_user users0 e.uid).isSome)).length⟩) := rfl
  rw [hmid, nearbyEval]
  rfl

/-- C2 counterexample: a location update with latitude 200 (outside
[-90, 90]) does not fail and does change the presence store: a session
row with the out-of-range latitude is created. upsert_air_location has no
coordinate validation. -/
theorem upsert_accepts_out_of_range :
    DB.upsert_air_location [] 1 200 0 7 = [⟨1, 200, 0, 7⟩] := rfl

/-- C2 amended: upsert performs no coordinate validation; for every input,
in range or not, the session row is created or replaced and carries
exactly the given coordinates. -/
theorem upsert_stores_any_coordinates (store : List AirSession) (uid : Int)
    (lat lon : ℝ) (ts : Int) :
    (DB.upsert_air_location store uid lat lon ts).find? (fun s => s.user_id == uid) =
      some ⟨uid, lat, lon, ts⟩ :=
  find?_upsert_air store uid lat lon ts

/-- C4: the radius filter is inclusive: a candidate session at computed
(truncated) distance d from the query point is in the nearby list when
radius_m = d, and out of it when radius_m = d - 1. -/
theorem radius_boundary_inclusive (sessions : List AirSession) (user_id : Int)
    (lat lon : ℝ) (s : AirSession) (hs : s ∈ sessions) (hne : s.user_id ≠ user_id) :
    (⟨s.user_id, intTrunc (haversine_m lat lon s.lat s.lon), s.lat, s.lon⟩ : NearbyEntry) ∈
        computeNearby sessions user_id lat lon (intTrunc (haversine_m lat lon s.lat s.lon))
    ∧ (⟨s.user_id, intTrunc (haversine_m lat lon s.lat s.lon), s.lat, s.lon⟩ : NearbyEntry) ∉
        computeNearby sessions user_id lat lon
          (intTrunc (haversine_m lat lon s.lat s.lon) - 1) := by
  constructor
  · exact (mem_computeNearby sessions user_id lat lon _ _).mpr
      ⟨s, hs, by simp [hne], le_refl _, rfl⟩
  · intro hmem
    obtain ⟨s', _, _, hd, he⟩ := (mem_computeNearby sessions user_id lat lon _ _).mp hmem
    have hdist : intTrunc (haversine_m lat lon s.lat s.lon) =
        intTrunc (haversine_m lat lon s'.lat s'.lon) := congrArg NearbyEntry.dist he
    omega

/-- C4 witness: a candidate at the query point itself (distance 0) is
matched with radius 0 and not with radius -1. -/
theorem radius_boundary_inclusive_witness :
    (⟨2, 0, 0, 0⟩ : AirSession) ∈ [(⟨2, 0, 0, 0⟩ : AirSession)] ∧
    ((⟨(⟨2, 0, 0, 0⟩ : AirSession).user_id,
        intTrunc (haversine_m 0 0 (⟨2, 0, 0, 0⟩ : AirSession).lat
          (⟨2, 0, 0, 0⟩ : AirSession).lon),
        (⟨2, 0, 0, 0⟩ : AirSession).lat, (⟨2, 0, 0, 0⟩ : AirSession).lon⟩ : NearbyEntry) ∈
        computeNearby [⟨2, 0, 0, 0⟩] 1 0 0
          (intTrunc (haversine_m 0 0 (⟨2, 0, 0, 0⟩ : AirSession).lat
            (⟨2, 0, 0, 0⟩ : AirSession).lon))
      ∧ (⟨(⟨2, 0, 0, 0⟩ : AirSession).user_id,
          intTrunc (haversine_m 0 0 (⟨2, 0, 0, 0⟩ : AirSession).lat
            (⟨2, 0, 0, 0⟩ : AirSession).lon),
          (⟨2, 0, 0, 0⟩ : AirSession).lat, (⟨2, 0, 0, 0⟩ : AirSession).lon⟩ : NearbyEntry) ∉
          computeNearby [⟨2, 0, 0, 0⟩] 1 0 0
            (intTrunc (haversine_m 0 0 (⟨2, 0, 0, 0⟩ : AirSession).lat
              (⟨2, 0, 0, 0⟩ : AirSession).lon) - 1)) :=
  ⟨by simp, radius_boundary_inclusive [⟨2, 0, 0, 0⟩] 1 0 0 ⟨2, 0, 0, 0⟩ (by simp) (by decide)⟩

/-- C5 counterexample: two candidates both at the query point (equal
distance 0) listed in scan order user 2 before user 1 stay in that order;
the tie is not broken by user_id. -/
theorem equal_distance_not_sorted_by_user_id :
    computeNearby [⟨2, 0, 0, 0⟩, ⟨1, 0, 0, 0⟩] 3 0 0 200 =
      [⟨2, 0, 0, 0⟩, ⟨1, 0, 0, 0⟩] := by
  have h1 : haversine_m 0 0 0 0 = 0 := haversine_m_self 0 0
  unfold computeNearby
  rw [List.filterMap_cons, List.filterMap_cons, List.filterMap_nil]
  norm_num [h1, intTrunc_zero]
  rw [List.mergeSort_of_sorted (by simp [List.pairwise_cons])]

/-- C5 amended: the nearby list is sorted ascending by distance; entries
at equal distance keep the relative order of the session scan (Python's
sort and List.mergeSort are both stable), with no user_id tie-break. -/
theorem nearby_sorted_by_distance (sessions : List AirSession) (user_id : Int)
    (lat lon : ℝ) (radius_m : Int) :
    (computeNearby sessions user_id lat lon radius_m).Pairwise
      (fun a b => a.dist ≤ b.dist) := by
  unfold computeNearby
  refine List.Pairwise.imp ?_ (List.sorted_mergeSort ?_ ?_ _)
  · intro a b h
    exact of_decide_eq_true h
  · intro a b c hab hbc
    rw [decide_eq_true_eq] at hab hbc ⊢
    omega
  · intro a b
    simp only [Bool.or_eq_true, decide_eq_true_eq]
    exact Int.le_total _ _

/-- C6: the nearby list never contains the querying user. -/
theorem nearby_excludes_self (sessions : List AirSession) (user_id : Int)
    (lat lon : ℝ) (radius_m : Int) (e : NearbyEntry)
    (he : e ∈ computeNearby sessions user_id lat lon radius_m) : e.uid ≠ user_id := by
  obtain ⟨s, _, hk, _, heq⟩ := (mem_computeNearby sessions user_id lat lon radius_m e).mp he
  rw [heq]
  simpa [beq_eq_false_iff_ne] using hk

/-- C6 witness: with the querying user's own session stored at the query
point, the matched entry is the other user, not the querying user. -/
theorem nearby_excludes_self_witness :
    (⟨2, 0, 0, 0⟩ : NearbyEntry) ∈ computeNearby [⟨1, 0, 0, 0⟩, ⟨2, 0, 0, 0⟩] 1 0 0 200
    ∧ (⟨2, 0, 0, 0⟩ : NearbyEntry).uid ≠ 1 :=
  ⟨by simp [nearbyEval2],
   nearby_excludes_self [⟨1, 0, 0, 0⟩, ⟨2, 0, 0, 0⟩] 1 0 0 200 ⟨2, 0, 0, 0⟩
     (by simp [nearbyEval2])⟩

/-- C8 counterexample: deactivating the only session deletes its row
outright; nothing persists for later reactivation. -/
theorem deactivate_removes_the_row :
    Database.set_session_inactive [⟨1, 0, 0, 0, none⟩] 1 = [] := rfl

/-- C8 amended: set_session_inactive removes the user's session row
entirely (DELETE); it is idempotent and a no-op success when no session
exists, and rows of other users are untouched. -/
theorem deactivate_deletes_row (sessions : List SessionRow) (uid v : Int) (hv : v ≠ uid) :
    (Database.set_session_inactive sessions uid).find? (fun s => s.user_id == uid) = none
    ∧ Database.set_session_inactive (Database.set_session_inactive sessions uid) uid
        = Database.set_session_inactive sessions uid
    ∧ (Database.set_session_inactive sessions uid).find? (fun s => s.user_id == v)
        = sessions.find? (fun s => s.user_id == v) := by
  unfold Database.set_session_inactive
  refine ⟨?_, ?_, ?_⟩
  · rw [List.find?_eq_none]
    intro x hx
    have h2 : (x.user_id == uid) = false := by
      simpa using (List.mem_filter.mp hx).2
    simp [h2]
  · rw [List.filter_filter]
    exact List.filter_congr (fun x _ => by simp)
  · induction sessions with
    | nil => rfl
    | cons a l ih =>
      rw [List.filter_cons]
      by_cases hk : a.user_id == uid
      · rw [if_neg (by simp [hk])]
        rw [List.find?_cons]
        have hqa : (a.user_id == v) = false := by
          rw [beq_eq_false_iff_ne, beq_iff_eq.mp hk]
          exact fun h => hv h.symm
        rw [hqa]
        exact ih
      · have hk' : (a.user_id == uid) = false := by
          rwa [Bool.not_eq_true] at hk
        rw [if_pos (by simp [hk'])]
        rw [List.find?_cons, List.find?_cons]
        cases hqa : a.user_id == v
        · simpa [hqa] using ih
        · simp [hqa]

/-- C8 witness: deactivating user 1 in a one-row store leaves nothing for
user 1, is idempotent, and does not affect lookups for user 2. -/
theorem deactivate_deletes_row_witness :
    (2 : Int) ≠ 1 ∧
    ((Database.set_session_inactive [⟨1, 0, 0, 0, none⟩] 1).find?
        (fun s => s.user_id == 1) = none
    ∧ Database.set_session_inactive
        (Database.set_session_inactive [⟨1, 0, 0, 0, none⟩] 1) 1
        = Database.set_session_inactive [⟨1, 0, 0, 0, none⟩] 1
    ∧ (Database.set_session_inactive [⟨1, 0, 0, 0, none⟩] 1).find?
        (fun s => s.user_id == 2)
        = List.find? (fun s => s.user_id == 2) [⟨1, 0, 0, 0, none⟩]) :=
  ⟨by decide, deactivate_deletes_row [⟨1, 0, 0, 0, none⟩] 1 2 (by decide)⟩

/-- C7: the user_id column of both session stores stays duplicate-free
under every mutating operation, and an upsert replaces the user's row
wholesale: every field of the stored row is the newly supplied value. -/
theorem session_key_unique_and_wholesale
    (pg : List SessionRow) (store : List AirSession)
    (uidA uidB uidC : Int) (lat lon lat2 lon2 : ℝ) (ts ts2 : Int) (au : Option Int)
    (hpg : (pg.map (fun s => s.user_id)).Nodup)
    (hbot : (store.map (fun s => s.user_id)).Nodup) :
    ((Database.upsert_session pg uidA lat lon ts au).map (fun s => s.user_id)).Nodup
    ∧ ((Database.set_session_inactive pg uidB).map (fun s => s.user_id)).Nodup
    ∧ (Database.upsert_session pg uidA lat lon ts au).find? (fun s => s.user_id == uidA)
        = some ⟨uidA, lat, lon, ts, au⟩
    ∧ ((DB.upsert_air_location store uidC lat2 lon2 ts2).map (fun s => s.user_id)).Nodup
    ∧ (DB.upsert_air_location store uidC lat2 lon2 ts2).find? (fun s => s.user_id == uidC)
        = some ⟨uidC, lat2, lon2, ts2⟩ :=
  ⟨keys_upsert_session pg uidA lat lon ts au hpg,
   keys_set_session_inactive pg uidB hpg,
   find?_upsert_session pg uidA lat lon ts au,
   keys_upsert_air store uidC lat2 lon2 ts2 hbot,
   find?_upsert_air store uidC lat2 lon2 ts2⟩

/-- C7 witness: concrete one-row stores with an upsert for a new user and
a deactivation. -/
theorem session_key_unique_and_wholesale_witness :
    (([(⟨1, 0, 0, 0, none⟩ : SessionRow)].map (fun s => s.user_id)).Nodup
      ∧ ([(⟨1, 0, 0, 0⟩ : AirSession)].map (fun s => s.user_id)).Nodup)
    ∧ (((Database.upsert_session [⟨1, 0, 0, 0, none⟩] 2 3 4 5 (some 9)).map
          (fun s => s.user_id)).Nodup
    ∧ ((Database.set_session_inactive [⟨1, 0, 0, 0, none⟩] 1).map
          (fun s => s.user_id)).Nodup
    ∧ (Database.upsert_session [⟨1, 0, 0, 0, none⟩] 2 3 4 5 (some 9)).find?
          (fun s => s.user_id == 2) = some ⟨2, 3, 4, 5, some 9⟩
    ∧ ((DB.upsert_air_location [⟨1, 0, 0, 0⟩] 2 3 4 5).map (fun s => s.user_id)).Nodup
    ∧ (DB.upsert_air_location [⟨1, 0, 0, 0⟩] 2 3 4 5).find?
          (fun s => s.user_id == 2) = some ⟨2, 3, 4, 5⟩) :=
  ⟨⟨by simp, by simp⟩,
   session_key_unique_and_wholesale [⟨1, 0, 0, 0, none⟩] [⟨1, 0, 0, 0⟩]
     2 1 2 3 4 3 4 5 5 (some 9) (by simp) (by simp)⟩

/-- The WHERE clause of the Postgres visibility query agrees with the
spec-side condition: the expiry is absent or strictly in the future. -/
theorem visibleAt_eq_all (s : SessionRow) (now : Int) :
    Database.visibleAt s now = s.active_until.all (fun t => now < t) := by
  unfold Database.visibleAt
  cases s.active_until <;> rfl

/-- C3: get_active_sessions(now) returns exactly the session rows whose
active_until is null or strictly later than now (given referential
integrity of the users join); in particular an expired session is
invisible to matching with no sweep involved. -/
theorem get_active_sessions_visibility (sessions : List SessionRow)
    (users : List PGUser) (now : Int) (s : SessionRow)
    (hfk : ∀ r ∈ sessions, ∃ u ∈ users, u.user_id = r.user_id) :
    s ∈ (Database.get_active_sessions sessions users now).map Prod.fst ↔
      s ∈ sessions ∧ s.active_until.all (fun t => now < t) = true := by
  unfold Database.get_active_sessions
  constructor
  · intro hmem
    obtain ⟨p, hp, hps⟩ := List.mem_map.mp hmem
    obtain ⟨r, hr, hf⟩ := List.mem_filterMap.mp hp
    rcases hfind : users.find? (fun u => u.user_id == r.user_id) with _ | u <;>
      rw [hfind] at hf <;> dsimp only at hf
    · exact absurd hf (by simp)
    · by_cases hvis : Database.visibleAt r now = true
      · rw [if_pos hvis] at hf
        injection hf with h
        have hsr : s = r := by
          rw [← hps, ← h]
        rw [hsr]
        refine ⟨hr, ?_⟩
        rw [← visibleAt_eq_all]
        exact hvis
      · rw [if_neg hvis] at hf
        exact absurd hf (by simp)
  · rintro ⟨hs, hvis⟩
    have hv : Database.visibleAt s now = true := by
      rw [visibleAt_eq_all]
      exact hvis
    obtain ⟨u, hu, huid⟩ := hfk s hs
    have hfind : (users.find? (fun x => x.user_id == s.user_id)).isSome :=
      List.find?_isSome.mpr ⟨u, hu, by simp [huid]⟩
    obtain ⟨u', hu'⟩ := Option.isSome_iff_exists.mp hfind
    refine List.mem_map.mpr ⟨(s, u'), List.mem_filterMap.mpr ⟨s, hs, ?_⟩, rfl⟩
    rw [hu']
    dsimp only
    rw [if_pos hv]

/-- C3 witness: a session expiring at time 5 is invisible at time 10. -/
theorem get_active_sessions_visibility_witness :
    (∀ r ∈ [(⟨7, 0, 0, 0, some 5⟩ : SessionRow)],
        ∃ u ∈ [(⟨7, none, none, none⟩ : PGUser)], u.user_id = r.user_id) ∧
    ((⟨7, 0, 0, 0, some 5⟩ : SessionRow) ∈
        (Database.get_active_sessions [⟨7, 0, 0, 0, some 5⟩]
          [⟨7, none, none, none⟩] 10).map Prod.fst ↔
      (⟨7, 0, 0, 0, some 5⟩ : SessionRow) ∈ [(⟨7, 0, 0, 0, some 5⟩ : SessionRow)]
        ∧ (⟨7, 0, 0, 0, some 5⟩ : SessionRow).active_until.all (fun t => 10 < t) = true) :=
  ⟨fun r hr => ⟨⟨7, none, none, none⟩, by simp,
      by rw [List.mem_singleton.mp hr]⟩,
   get_active_sessions_visibility [⟨7, 0, 0, 0, some 5⟩] [⟨7, none, none, none⟩] 10
     ⟨7, 0, 0, 0, some 5⟩
     (fun r hr => ⟨⟨7, none, none, none⟩, by simp, by rw [List.mem_singleton.mp hr]⟩)⟩

/-- With a non-positive plan limit the ping limiter allows the submission
and leaves the daily table untouched. -/
theorem enforce_nolimit (daily : List DailyRow) (ymd : String) (uid : Int)
    (daily_pings : Int) (hdp : daily_pings ≤ 0) :
    enforce_daily_ping_limit daily ymd uid daily_pings = (true, daily) := by
  unfold enforce_daily_ping_limit
  rw [if_pos hdp]

/-- Shape of on_location when the profile is complete and no daily limit
is in force: the session is upserted and the nearby scan and notification
fan-out run on the updated store. -/
theorem on_location_ok_eq (st : BotState) (uid : Int) (lat lon : ℝ) (now : Int)
    (ymd : String) (radius_m daily_pings ttl_minutes : Int)
    (hp : DB.profile_complete st.users uid = true) (hdp : daily_pings ≤ 0) :
    on_location st uid lat lon now ymd radius_m daily_pings ttl_minutes =
      (⟨st.users, DB.upsert_air_location st.air uid lat lon now, st.daily⟩,
       ⟨.ok,
        computeNearby (DB.get_active_sessions
          (DB.upsert_air_location st.air uid lat lon now) ttl_minutes now)
          uid lat lon radius_m,
        (((computeNearby (DB.get_active_sessions
            (DB.upsert_air_location st.air uid lat lon now) ttl_minutes now)
            uid lat lon radius_m).take 25).filter
          (fun e => (DB.get_user st.users e.uid).isSome)).length⟩) := by
  unfold on_location
  rw [if_pos hp, enforce_nolimit st.daily ymd uid daily_pings hdp]

/-- C1 amended: the bot keeps no notification history, so an immediately
repeated identical submission produces the same match list and sends the
same notifications again. -/
theorem repeat_submission_same_effect (st : BotState) (uid : Int) (lat lon : ℝ)
    (now : Int) (ymd : String) (radius_m daily_pings ttl_minutes : Int)
    (hdp : daily_pings ≤ 0) :
    (on_location (on_location st uid lat lon now ymd radius_m daily_pings ttl_minutes).1
        uid lat lon now ymd radius_m daily_pings ttl_minutes).2 =
      (on_location st uid lat lon now ymd radius_m daily_pings ttl_minutes).2 := by
  by_cases hp : DB.profile_complete st.users uid = true
  · have e1 := on_location_ok_eq st uid lat lon now ymd radius_m daily_pings
      ttl_minutes hp hdp
    have hp2 : DB.profile_complete
        (BotState.mk st.users (DB.upsert_air_location st.air uid lat lon now)
          st.daily).users uid = true := hp
    have e2 := on_location_ok_eq
      ⟨st.users, DB.upsert_air_location st.air uid lat lon now, st.daily⟩
      uid lat lon now ymd radius_m daily_pings ttl_minutes hp2 hdp
    simp only [e1, e2, upsert_air_idem]
  · have e1 : on_location st uid lat lon now ymd radius_m daily_pings ttl_minutes =
        (st, ⟨.profileIncomplete, [], 0⟩) := by
      unfold on_location
      rw [if_neg hp]
    rw [e1, show ((st, (⟨.profileIncomplete, [], 0⟩ : LocationResult))).1 = st from rfl, e1]

/-- C1 amended witness: concrete repeated submission with no daily limit. -/
theorem repeat_submission_same_effect_witness :
    (0 : Int) ≤ 0 ∧
    (on_location (on_location st0 1 0 0 0 "d" 200 0 0).1 1 0 0 0 "d" 200 0 0).2 =
      (on_location st0 1 0 0 0 "d" 200 0 0).2 :=
  ⟨le_refl 0, repeat_submission_same_effect st0 1 0 0 0 "d" 200 0 0 (le_refl 0)⟩

/-- C1 counterexample: user 2 is notified on user 1's first submission,
and the immediate second submission by user 1 shows the same match list
but again sends one notification, not zero: there is no cooldown. -/
theorem second_submission_still_notifies :
    (on_location (on_location st0 1 0 0 0 "d" 200 0 0).1 1 0 0 0 "d" 200 0 0).2.matchList
      = (on_location st0 1 0 0 0 "d" 200 0 0).2.matchList
    ∧ (on_location (on_location st0 1 0 0 0 "d" 200 0 0).1 1 0 0 0 "d" 200 0 0).2.notified
      = 1 := by
  constructor <;> simp [run1, run2]

/-- Shape of on_location when the profile is complete, the limit is
positive and not yet reached: the counter is bumped, then the session is
upserted and matching runs. -/
theorem on_location_counted_eq (st : BotState) (uid : Int) (lat lon : ℝ) (now : Int)
    (ymd : String) (radius_m daily_pings ttl_minutes : Int)
    (hp : DB.profile_complete st.users uid = true) (hdp : 0 < daily_pings)
    (hused : DB.get_daily st.daily ymd uid "pings" < daily_pings) :
    on_location st uid lat lon now ymd radius_m daily_pings ttl_minutes =
      (⟨st.users, DB.upsert_air_location st.air uid lat lon now,
        DB.inc_daily st.daily ymd uid "pings" 1⟩,
       ⟨.ok,
        computeNearby (DB.get_active_sessions
          (DB.upsert_air_location st.air uid lat lon now) ttl_minutes now)
          uid lat lon radius_m,
        (((computeNearby (DB.get_active_sessions
            (DB.upsert_air_location st.air uid lat lon now) ttl_minutes now)
            uid lat lon radius_m).take 25).filter
          (fun e => (DB.get_user st.users e.uid).isSome)).length⟩) := by
  unfold on_location
  rw [if_pos hp]
  unfold enforce_daily_ping_limit
  rw [if_neg (by omega), if_neg (by omega)]

/-- Shape of on_location when the profile is complete and the positive
daily limit is already reached: the submission is refused and the state
is returned unchanged. -/
theorem on_location_blocked_eq (st : BotState) (uid : Int) (lat lon : ℝ) (now : Int)
    (ymd : String) (radius_m daily_pings ttl_minutes : Int)
    (hp : DB.profile_complete st.users uid = true) (hdp : 0 < daily_pings)
    (hused : daily_pings ≤ DB.get_daily st.daily ymd uid "pings") :
    on_location st uid lat lon now ymd radius_m daily_pings ttl_minutes =
      (st, ⟨.limitBlocked, [], 0⟩) := by
  unfold on_location
  rw [if_pos hp]
  unfold enforce_daily_ping_limit
  rw [if_neg (by omega), if_pos hused]

/-- C10 amended: with a positive limit already reached the submission is
rejected and nothing changes; with a positive limit not yet reached the
counter is incremented by exactly one and the session upserted; with a
non-positive limit the submission proceeds without touching the counter. -/
theorem daily_limit_gate (st : BotState) (uid : Int) (lat lon : ℝ) (now : Int)
    (ymd : String) (radius_m daily_pings ttl_minutes : Int)
    (hp : DB.profile_complete st.users uid = true) :
    (0 < daily_pings →
      daily_pings ≤ DB.get_daily st.daily ymd uid "pings" →
      (on_location st uid lat lon now ymd radius_m daily_pings ttl_minutes).1 = st
      ∧ (on_location st uid lat lon now ymd radius_m daily_pings ttl_minutes).2
          = ⟨.limitBlocked, [], 0⟩)
    ∧ (0 < daily_pings →
      DB.get_daily st.daily ymd uid "pings" < daily_pings →
      DB.get_daily (on_location st uid lat lon now ymd radius_m
          daily_pings ttl_minutes).1.daily ymd uid "pings"
          = DB.get_daily st.daily ymd uid "pings" + 1
      ∧ (on_location st uid lat lon now ymd radius_m daily_pings ttl_minutes).1.air
          = DB.upsert_air_location st.air uid lat lon now
      ∧ (on_location st uid lat lon now ymd radius_m daily_pings ttl_minutes).2.outcome
          = .ok)
    ∧ (daily_pings ≤ 0 →
      (on_location st uid lat lon now ymd radius_m daily_pings ttl_minutes).1.daily
          = st.daily
      ∧ (on_location st uid lat lon now ymd radius_m daily_pings ttl_minutes).1.air
          = DB.upsert_air_location st.air uid lat lon now
      ∧ (on_location st uid lat lon now ymd radius_m daily_pings ttl_minutes).2.outcome
          = .ok) := by
  refine ⟨fun hdp hused => ?_, fun hdp hused => ?_, fun hdp => ?_⟩
  · rw [on_location_blocked_eq st uid lat lon now ymd radius_m daily_pings
      ttl_minutes hp hdp hused]
    exact ⟨rfl, rfl⟩
  · rw [on_location_counted_eq st uid lat lon now ymd radius_m daily_pings
      ttl_minutes hp hdp hused]
    exact ⟨get_daily_inc_daily st.daily ymd uid "pings" 1, rfl, rfl⟩
  · rw [on_location_ok_eq st uid lat lon now ymd radius_m daily_pings
      ttl_minutes hp hdp]
    exact ⟨rfl, rfl, rfl⟩

/-- C10 amended witness: concrete submission with a positive limit of 1
and an empty counter table. -/
theorem daily_limit_gate_witness :
    DB.profile_complete st2.users 1 = true ∧
    ((0 < (1 : Int) →
      (1 : Int) ≤ DB.get_daily st2.daily "d" 1 "pings" →
      (on_location st2 1 0 0 0 "d" 200 1 0).1 = st2
      ∧ (on_location st2 1 0 0 0 "d" 200 1 0).2 = ⟨.limitBlocked, [], 0⟩)
    ∧ (0 < (1 : Int) →
      DB.get_daily st2.daily "d" 1 "pings" < 1 →
      DB.get_daily (on_location st2 1 0 0 0 "d" 200 1 0).1.daily "d" 1 "pings"
          = DB.get_daily st2.daily "d" 1 "pings" + 1
      ∧ (on_location st2 1 0 0 0 "d" 200 1 0).1.air
          = DB.upsert_air_location st2.air 1 0 0 0
      ∧ (on_location st2 1 0 0 0 "d" 200 1 0).2.outcome = .ok)
    ∧ ((1 : Int) ≤ 0 →
      (on_location st2 1 0 0 0 "d" 200 1 0).1.daily = st2.daily
      ∧ (on_location st2 1 0 0 0 "d" 200 1 0).1.air
          = DB.upsert_air_location st2.air 1 0 0 0
      ∧ (on_location st2 1 0 0 0 "d" 200 1 0).2.outcome = .ok)) :=
  ⟨rfl, daily_limit_gate st2 1 0 0 0 "d" 200 1 0 rfl⟩

/-- C10 counterexample: with the limit configured to 0 the submission is
accepted and the session stored, yet the daily counter stays at 0 instead
of being incremented by one. -/
theorem no_increment_when_limit_nonpositive :
    (on_location st2 1 0 0 0 "d" 200 0 0).2.outcome = Outcome.ok
    ∧ (on_location st2 1 0 0 0 "d" 200 0 0).1.air = [⟨1, 0, 0, 0⟩]
    ∧ DB.get_daily (on_location st2 1 0 0 0 "d" 200 0 0).1.daily "d" 1 "pings" = 0 :=
  ⟨rfl, rfl, rfl⟩

end AIIIR
